import Mathlib

/-!
Verification of henningmyhrvold/archinstall (`install.py`) against its
natural-language specification.

The script plans a two-partition layout (EFI boot partition plus an
encrypted root partition taking the remaining space), performs the
filesystem operations with a full-device wipe, and then drives the
installation: mounting, base population, bootloader, users, services,
swap file, and finally a caller-supplied post-install script run inside
the chroot.

Sizes are modelled as exact byte counts carrying the device sector size,
mirroring `archinstall.lib.models.device.Size` as the spec describes it.
-/

namespace ArchInstall

/-- A Size is an exact byte magnitude tagged with the device's sector size,
as constructed in install.py via `Size(n, Unit.MiB, sector_size)`. -/
structure Size where
  bytes : Int
  sector_size : Int
deriving Repr, DecidableEq

/-- `Size(n, Unit.MiB, sector_size)`: n mebibytes, 1 MiB = 1048576 bytes. -/
def Size.mib (n : Int) (ss : Int) : Size :=
  ⟨n * 1048576, ss⟩

/-- Size addition (byte-exact), as used at install.py line 108. -/
def Size.add (a b : Size) : Size :=
  ⟨a.bytes + b.bytes, a.sector_size⟩

/-- Modelled from the spec: Size subtraction. The Size class itself lives in
the archinstall library (imported by install.py, not present under src/);
the spec fixes its contract: a Size is "never negative after resolution;
arithmetic that would produce a negative remaining length is an error, not
a clamp to zero". So subtraction that would go negative is an error,
modelled as `none`. -/
def Size.sub (a b : Size) : Option Size :=
  if a.bytes - b.bytes < 0 then none else some ⟨a.bytes - b.bytes, a.sector_size⟩

/-- Filesystem types used by install.py (lines 88, 102). -/
inductive FsType
  | fat32
  | ext4
deriving Repr, DecidableEq

/-- Partition flags used by install.py (line 103). -/
inductive PartFlag
  | esp
deriving Repr, DecidableEq

/-- Modification status used by install.py (line 97). -/
inductive ModStatus
  | create
deriving Repr, DecidableEq

/-- Partition type used by install.py (line 98). -/
inductive PartType
  | primary
deriving Repr, DecidableEq

/-- One planned partition, after `PartitionModification` as install.py
builds it: status, type, start offset, length, mountpoint, filesystem
type and flags. -/
structure PartitionModification where
  status : ModStatus
  ptype : PartType
  start : Size
  length : Size
  mountpoint : Option String
  fs_type : FsType
  flags : List PartFlag
deriving Repr, DecidableEq

/-- install.py line 94: `boot_start = Size(1, Unit.MiB, sector_size)`. -/
def boot_start (ss : Int) : Size := Size.mib 1 ss

/-- install.py line 95: `boot_length = Size(1024, Unit.MiB, sector_size)`. -/
def boot_length (ss : Int) : Size := Size.mib 1024 ss

/-- install.py lines 96-104: the EFI system partition (FAT32, flagged ESP,
mounted at /boot). -/
def boot_partition (ss : Int) : PartitionModification :=
  { status := .create
    ptype := .primary
    start := boot_start ss
    length := boot_length ss
    mountpoint := some "/boot"
    fs_type := .fat32
    flags := [.esp] }

/-- install.py line 108: `root_start = boot_start + boot_length`. -/
def root_start (ss : Int) : Size := (boot_start ss).add (boot_length ss)

/-- install.py line 109:
`root_length = total_disk_size - root_start - Size(1, Unit.MiB, sector_size)`,
evaluated left to right over the spec-modelled guarded subtraction. -/
def root_length (total_disk_size : Size) : Option Size :=
  (total_disk_size.sub (root_start total_disk_size.sector_size)).bind
    (fun s => s.sub (Size.mib 1 total_disk_size.sector_size))

/-- install.py lines 110-118: the root partition (ext4, mounted at /,
taking the remaining space). `none` when the Size arithmetic for the
remaining length is an error. -/
def root_partition (total_disk_size : Size) : Option PartitionModification :=
  (root_length total_disk_size).map fun len =>
    { status := .create
      ptype := .primary
      start := root_start total_disk_size.sector_size
      length := len
      mountpoint := some "/"
      fs_type := .ext4
      flags := [] }

/-- The planned partition list of install.py (lines 105 and 119): the boot
partition followed by the root partition, for a device of `cap` bytes
total capacity and sector size `ss`. -/
def planPartitions (cap ss : Int) : Option (List PartitionModification) :=
  (root_partition ⟨cap, ss⟩).map fun r => [boot_partition ss, r]

/-- End offset (in bytes) of a planned partition: start + length. -/
def partEnd (p : PartitionModification) : Int :=
  p.start.bytes + p.length.bytes

/-- Characterisation of the remaining-length computation: it fails exactly
below 1026 MiB (boot end 1025 MiB plus the 1 MiB trailing margin) and
otherwise returns capacity minus 1026 MiB. -/
theorem root_length_eq (cap ss : Int) :
    root_length ⟨cap, ss⟩ =
      if cap < 1075838976 then none else some ⟨cap - 1075838976, ss⟩ := by
  simp only [root_length, root_start, boot_start, boot_length, Size.sub, Size.add, Size.mib]
  norm_num
  split_ifs with h1 h2 h3 <;> first
    | rfl
    | omega
    | (simp only [Option.some_bind]; split_ifs with h4 <;> first
        | rfl
        | omega
        | (simp only [Option.some.injEq, Size.mk.injEq]; exact ⟨by omega, trivial⟩))

/-- The plan succeeds exactly at capacities of at least 1026 MiB, and then
consists of the boot partition and a root partition of the remaining
capacity minus the margins. -/
theorem planPartitions_eq (cap ss : Int) :
    planPartitions cap ss =
      if cap < 1075838976 then none
      else some [boot_partition ss,
        { status := .create
          ptype := .primary
          start := ⟨1074790400, ss⟩
          length := ⟨cap - 1075838976, ss⟩
          mountpoint := some "/"
          fs_type := .ext4
          flags := [] }] := by
  unfold planPartitions root_partition
  rw [root_length_eq]
  split_ifs with h
  · rfl
  · simp only [Option.map_some]
    unfold root_start boot_start boot_length Size.add Size.mib
    norm_num

/-- C1: for every device capacity and sector size, whenever install.py's
partition plan is produced, the partitions' intervals [start, start+length)
are pairwise non-overlapping with strictly increasing start offsets, and the
final (remaining-space) partition's end offset is at most the total capacity
minus the reserved trailing margin of 1 MiB. -/
theorem plan_intervals_invariant (cap ss : Int) (ps : List PartitionModification)
    (h : planPartitions cap ss = some ps) :
    ps.Pairwise (fun a b => a.start.bytes < b.start.bytes ∧ partEnd a ≤ b.start.bytes) ∧
    (∀ last, ps.getLast? = some last → partEnd last ≤ cap - 1048576) := by
  rw [planPartitions_eq] at h
  rcases lt_or_le cap 1075838976 with hc | hc
  · rw [if_pos hc] at h
    cases h
  · rw [if_neg (by omega)] at h
    rw [Option.some.injEq] at h
    subst h
    constructor
    · simp [List.pairwise_cons, boot_partition, boot_start, boot_length, Size.mib, partEnd]
    · intro last hl
      simp only [List.getLast?_cons_cons, List.getLast?_singleton, Option.some.injEq] at hl
      subst hl
      simp only [partEnd]
      omega

/-- Witness for C1 at a 21 GiB device with 512-byte sectors. -/
theorem plan_intervals_invariant_witness :
    ([boot_partition 512,
      { status := .create, ptype := .primary, start := ⟨1074790400, 512⟩,
        length := ⟨21472739328, 512⟩, mountpoint := some "/",
        fs_type := .ext4, flags := [] }] : List PartitionModification).Pairwise
        (fun a b => a.start.bytes < b.start.bytes ∧ partEnd a ≤ b.start.bytes) ∧
    (∀ last, ([boot_partition 512,
      { status := .create, ptype := .primary, start := ⟨1074790400, 512⟩,
        length := ⟨21472739328, 512⟩, mountpoint := some "/",
        fs_type := .ext4, flags := [] }] : List PartitionModification).getLast? = some last →
      partEnd last ≤ 22548578304 - 1048576) :=
  plan_intervals_invariant 22548578304 512 _ (by rw [planPartitions_eq]; norm_num)

/-- C2 counterexample: at a capacity of exactly 1026 MiB the remaining space
after the fixed partitions and the trailing margin is 0 bytes - smaller than
one 512-byte sector - yet planning succeeds and returns a zero-length root
partition instead of failing with an insufficient-capacity error. -/
theorem plan_zero_length_cex :
    planPartitions 1075838976 512 =
      some [boot_partition 512,
        { status := .create, ptype := .primary, start := ⟨1074790400, 512⟩,
          length := ⟨0, 512⟩, mountpoint := some "/", fs_type := .ext4, flags := [] }] ∧
    (0 : Int) < 512 := by
  constructor
  · rw [planPartitions_eq]; norm_num
  · norm_num

/-- C2 (amended): planning fails - via the Size subtraction error - exactly
when the capacity is below 1026 MiB (the fixed partitions' end plus the
1 MiB trailing margin); whenever a plan is produced no partition has
negative length, but a remaining space of zero bytes (or below one sector)
yields a zero-or-subsector-length partition rather than an
insufficient-capacity error naming the shortfall. -/
theorem plan_insufficient_capacity (cap ss : Int) :
    (planPartitions cap ss = none ↔ cap < 1075838976) ∧
    (∀ ps, planPartitions cap ss = some ps → ∀ p ∈ ps, 0 ≤ p.length.bytes) := by
  rw [planPartitions_eq]
  constructor
  · split_ifs with h <;> simp [h]
  · intro ps hps p hp
    rcases lt_or_le cap 1075838976 with h | h
    · rw [if_pos h] at hps
      cases hps
    · rw [if_neg (by omega)] at hps
      rw [Option.some.injEq] at hps
      subst hps
      simp only [List.mem_cons, List.not_mem_nil, or_false] at hp
      rcases hp with rfl | rfl
      · simp [boot_partition, boot_length, Size.mib]
      · simp only
        omega

/-- Witness for C2 (amended) at a 1 MiB device with 512-byte sectors. -/
theorem plan_insufficient_capacity_witness :
    (planPartitions 1048576 512 = none ↔ (1048576 : Int) < 1075838976) ∧
    (∀ ps, planPartitions 1048576 512 = some ps → ∀ p ∈ ps, 0 ≤ p.length.bytes) :=
  plan_insufficient_capacity 1048576 512

/-- C3 counterexample: on a 21 GiB device with 512-byte sectors the planner's
boot partition is 1024 MiB long, occupying [1 MiB, 1025 MiB), not the claimed
[1 MiB, 513 MiB), and the root length is total - 1025 MiB - 1 MiB, not the
claimed total - 513 MiB - 1 MiB. -/
theorem plan_example1_cex :
    ((planPartitions 22548578304 512).getD []).map (fun p => (p.start.bytes, p.length.bytes)) =
      [(1048576, 1073741824), (1074790400, 21472739328)] ∧
    (1073741824 : Int) ≠ 536870912 ∧
    (21472739328 : Int) ≠ 22548578304 - 537919488 - 1048576 := by
  refine ⟨?_, by norm_num, by norm_num⟩
  rw [planPartitions_eq]
  norm_num [boot_partition, boot_start, boot_length, Size.mib]

/-- C3 (amended): for a 21 GiB device with 512-byte sectors the plan is a
FAT32 ESP boot partition occupying [1 MiB, 1025 MiB) mounted at /boot, and
an ext4 root partition occupying [1025 MiB, total - 1 MiB) mounted at /,
whose length equals total - 1025 MiB - 1 MiB. -/
theorem plan_example1_amended :
    planPartitions 22548578304 512 =
      some [ { status := .create, ptype := .primary, start := ⟨1048576, 512⟩,
               length := ⟨1073741824, 512⟩, mountpoint := some "/boot",
               fs_type := .fat32, flags := [.esp] },
             { status := .create, ptype := .primary, start := ⟨1074790400, 512⟩,
               length := ⟨21472739328, 512⟩, mountpoint := some "/",
               fs_type := .ext4, flags := [] } ] ∧
    (21472739328 : Int) = 22548578304 - 1074790400 - 1048576 ∧
    (1074790400 : Int) = 1048576 + 1073741824 := by
  refine ⟨?_, by norm_num, by norm_num⟩
  rw [planPartitions_eq]
  norm_num [boot_partition, boot_start, boot_length, Size.mib]

/-- User inputs gathered by install.py lines 77-82, before any planning. -/
structure UserInputs where
  hostname : String
  sudo_user : String
  use_local_mirrors : Bool
  sudo_password : String
  root_password : String
  encryption_password : String
deriving Repr, DecidableEq

/-- A device modification, after `DeviceModification` as install.py uses it:
the target device, the wipe flag, and the added partitions. -/
structure DeviceModification where
  device : String
  wipe : Bool
  partitions : List PartitionModification
deriving Repr, DecidableEq

/-- install.py line 85: `DeviceModification(device, wipe=True)` - the wipe
flag is hard-coded to True at construction, before any partition is added. -/
def initialDeviceModification (devicePath : String) : DeviceModification :=
  { device := devicePath, wipe := true, partitions := [] }

/-- The device modification after the two `add_partition` calls of
install.py lines 105 and 119; `none` when the remaining-length arithmetic
failed. The user inputs are taken as a parameter to record that none of
them influences the construction. -/
def device_modification (_inputs : UserInputs) (devicePath : String) (cap ss : Int) :
    Option DeviceModification :=
  (planPartitions cap ss).map fun ps =>
    { initialDeviceModification devicePath with partitions := ps }

/-- C10: every run constructs its device modification with wipe=True -
already at construction and still in the configuration handed to the
filesystem-operations step - for every combination of user inputs, device
and capacity. -/
theorem device_modification_always_wipes (inputs : UserInputs) (devicePath : String)
    (cap ss : Int) :
    (initialDeviceModification devicePath).wipe = true ∧
    ∀ dm, device_modification inputs devicePath cap ss = some dm → dm.wipe = true := by
  refine ⟨rfl, ?_⟩
  intro dm h
  unfold device_modification at h
  rcases hp : planPartitions cap ss with _ | ps
  · rw [hp] at h
    cases h
  · rw [hp] at h
    have h2 : ({ initialDeviceModification devicePath with partitions := ps } :
        DeviceModification) = dm := Option.some.inj h
    subst h2
    rfl

/-- Witness for C10 at concrete inputs. -/
theorem device_modification_always_wipes_witness :
    (initialDeviceModification "/dev/sda").wipe = true ∧
    ∀ dm, device_modification
        { hostname := "arch", sudo_user := "henning", use_local_mirrors := false,
          sudo_password := "p1", root_password := "p2", encryption_password := "p3" }
        "/dev/sda" 22548578304 512 = some dm → dm.wipe = true :=
  device_modification_always_wipes
    { hostname := "arch", sudo_user := "henning", use_local_mirrors := false,
      sudo_password := "p1", root_password := "p2", encryption_password := "p3" }
    "/dev/sda" 22548578304 512

/-- install.py lines 37-38: the firmware check. The script aborts with a
SystemExit message unless /sys/firmware/efi exists, i.e. unless the machine
booted in UEFI mode. -/
def firmwareGate (efiPresent : Bool) : Except String Unit :=
  if efiPresent then Except.ok ()
  else Except.error "Error: This script requires a UEFI system. BIOS systems are not supported."

/-- install.py line 236: the bootloader installed on the (necessarily UEFI)
system - `installation.add_bootloader(Bootloader.Systemd)`, systemd-boot. -/
def chosenBootloader : String := "Systemd"

/-- C8 counterexample: on legacy BIOS firmware the script does not install a
BIOS-appropriate bootloader - it aborts at startup with a SystemExit saying
BIOS systems are not supported, so legacy BIOS is not supported at all. -/
theorem bios_unsupported_cex :
    firmwareGate false =
      Except.error "Error: This script requires a UEFI system. BIOS systems are not supported." :=
  rfl

/-- C8 (amended): the script supports UEFI only: the firmware gate passes
exactly on UEFI systems - aborting before any stage runs on legacy BIOS -
and the bootloader stage then installs systemd-boot, the UEFI-appropriate
loader. -/
theorem bootloader_uefi_only (efiPresent : Bool) :
    (firmwareGate efiPresent = Except.ok () ↔ efiPresent = true) ∧
    chosenBootloader = "Systemd" := by
  constructor
  · cases efiPresent <;> simp [firmwareGate]
  · rfl

/-- Witness for C8 (amended) on a UEFI machine. -/
theorem bootloader_uefi_only_witness :
    (firmwareGate true = Except.ok () ↔ true = true) ∧
    chosenBootloader = "Systemd" :=
  bootloader_uefi_only true

/-- Outcome of the post-install handoff tail of install.py (lines 336-360):
the banner lines printed about the script outcome, and whether an exception
propagates out of the try/except block. -/
structure PostInstallResult where
  printed : List String
  raised : Bool
deriving Repr, DecidableEq

/-- install.py lines 350-357: after `process.wait()`, a zero return code
prints the success banners; a non-zero return code prints the failure banner
carrying the exit code, then a hint. Both paths fall through normally:
nothing is raised, and the enclosing except-clause would catch and print an
exception anyway, so the interpreter exits with status 0 either way. -/
def postInstallHandoff (returncode : Int) : PostInstallResult :=
  if returncode = 0 then
    { printed := ["\n--- Post-install script completed successfully ---",
                  "\nInstallation complete. You can now reboot."]
      raised := false }
  else
    { printed := ["\n--- Post-install script failed with exit code " ++
                    toString returncode ++ " ---",
                  "Please check the output above for errors."]
      raised := false }

/-- C5 counterexample: a post-install script exiting with status 1 is
reported, but it is not fatal for the run - no exception is raised and the
installer finishes normally after printing the failure banner. -/
theorem post_install_nonfatal_cex :
    (postInstallHandoff 1).raised = false ∧
    (postInstallHandoff 1).printed =
      ["\n--- Post-install script failed with exit code 1 ---",
       "Please check the output above for errors."] := by
  refine ⟨rfl, ?_⟩
  rfl

/-- C5 (amended): for every non-zero exit status of the post-install script,
the failure is reported together with the script's exit code in the printed
banner, but it is not fatal: no exception propagates and the run terminates
normally. -/
theorem post_install_failure_reported (rc : Int) (h : rc ≠ 0) :
    (postInstallHandoff rc).printed =
      ["\n--- Post-install script failed with exit code " ++ toString rc ++ " ---",
       "Please check the output above for errors."] ∧
    (postInstallHandoff rc).raised = false := by
  unfold postInstallHandoff
  rw [if_neg h]
  exact ⟨rfl, rfl⟩

/-- Witness for C5 (amended) at exit code 7. -/
theorem post_install_failure_reported_witness :
    (postInstallHandoff 7).printed =
      ["\n--- Post-install script failed with exit code " ++ toString (7 : Int) ++ " ---",
       "Please check the output above for errors."] ∧
    (postInstallHandoff 7).raised = false :=
  post_install_failure_reported 7 (by decide)

/-- install.py lines 128-133: the `DiskEncryption` configuration is LUKS
with the selected partition list hard-wired to `[root_partition]`; `none`
when the root partition could not be planned. -/
def disk_encryption_partitions (cap ss : Int) : Option (List PartitionModification) :=
  (root_partition ⟨cap, ss⟩).map fun r => [r]

/-- Modelled from the spec: the default encryption-selection policy,
"every partition except ones flagged boot/ESP". -/
def defaultEncryptionPolicy (p : PartitionModification) : Bool :=
  !(p.flags.contains PartFlag.esp)

/-- install.py line 210: the kernel command line written into the target,
binding the root mountpoint to the deterministic mapped device name
cryptroot under /dev/mapper. -/
def kernelCmdline (uuid : String) : String :=
  "cryptdevice=UUID=" ++ uuid ++
    ":cryptroot root=/dev/mapper/cryptroot rw quiet splash loglevel=3 rd.udev.log_priority=3 vt.global_cursor_default=0 plymouth.use-simpledrm\n"

/-- Modelled from the spec: applying the Encryption Descriptor re-points the
mountpoint of each selected partition to its mapped device name - the
deterministic name cryptroot that install.py line 210 writes into the kernel
cmdline - while unselected partitions keep their raw device path. -/
def deviceAfterEncryption (rawPath : PartitionModification → String)
    (selected : List PartitionModification) (p : PartitionModification) : String :=
  if p ∈ selected then "/dev/mapper/cryptroot" else rawPath p

/-- Characterisation of the encrypted-partition list. -/
theorem disk_encryption_partitions_eq (cap ss : Int) :
    disk_encryption_partitions cap ss =
      if cap < 1075838976 then none
      else some [{ status := .create, ptype := .primary, start := ⟨1074790400, ss⟩,
                   length := ⟨cap - 1075838976, ss⟩, mountpoint := some "/",
                   fs_type := .ext4, flags := [] }] := by
  unfold disk_encryption_partitions root_partition
  rw [root_length_eq]
  split_ifs
  · rfl
  · simp only [Option.map_some]
    unfold root_start boot_start boot_length Size.add Size.mib
    norm_num

/-- C4: the partition list install.py hands to DiskEncryption equals the
planned partitions selected by the default policy - every partition except
the ESP-flagged boot partition; after applying encryption the selected root
partition's mountpoint is bound to the mapped device /dev/mapper/cryptroot,
while the boot/ESP partition, never selected, keeps its raw device path. -/
theorem encryption_selects_non_esp (cap ss : Int)
    (rawPath : PartitionModification → String)
    (ps : List PartitionModification) (h : planPartitions cap ss = some ps) :
    disk_encryption_partitions cap ss = some (ps.filter defaultEncryptionPolicy) ∧
    (∀ sel r, disk_encryption_partitions cap ss = some sel → r ∈ sel →
      deviceAfterEncryption rawPath sel r = "/dev/mapper/cryptroot" ∧
      deviceAfterEncryption rawPath sel (boot_partition ss) = rawPath (boot_partition ss)) := by
  rw [planPartitions_eq] at h
  rcases lt_or_le cap 1075838976 with hc | hc
  · rw [if_pos hc] at h
    cases h
  · rw [if_neg (by omega)] at h
    rw [Option.some.injEq] at h
    subst h
    constructor
    · rw [disk_encryption_partitions_eq, if_neg (by omega)]
      simp [List.filter, defaultEncryptionPolicy, boot_partition]
    · intro sel r hsel hr
      rw [disk_encryption_partitions_eq, if_neg (by omega), Option.some.injEq] at hsel
      subst hsel
      simp only [List.mem_cons, List.not_mem_nil, or_false] at hr
      subst hr
      constructor
      · simp [deviceAfterEncryption]
      · rw [deviceAfterEncryption, if_neg]
        intro hmem
        simp only [List.mem_cons, List.not_mem_nil, or_false] at hmem
        have : FsType.fat32 = FsType.ext4 := congrArg PartitionModification.fs_type hmem
        cases this

/-- Witness for C4 at a 21 GiB device with 512-byte sectors. -/
theorem encryption_selects_non_esp_witness :
    disk_encryption_partitions 22548578304 512 =
      some (([boot_partition 512,
        { status := .create, ptype := .primary, start := ⟨1074790400, 512⟩,
          length := ⟨21472739328, 512⟩, mountpoint := some "/",
          fs_type := .ext4, flags := [] }] : List PartitionModification).filter
            defaultEncryptionPolicy) ∧
    (∀ sel r, disk_encryption_partitions 22548578304 512 = some sel → r ∈ sel →
      deviceAfterEncryption (fun _ => "/dev/sda1") sel r = "/dev/mapper/cryptroot" ∧
      deviceAfterEncryption (fun _ => "/dev/sda1") sel (boot_partition 512) =
        (fun _ => "/dev/sda1") (boot_partition 512)) :=
  encryption_selects_non_esp 22548578304 512 (fun _ => "/dev/sda1") _
    (by rw [planPartitions_eq]; norm_num)

/-- install.py line 33: the local pacman mirror address. -/
def PACMAN_MIRROR : String := "192.168.1.100"

/-- install.py line 34: the local AUR mirror address. -/
def AUR_MIRROR : String := "192.168.1.100"

/-- install.py lines 171-187: the pacman.conf written when local mirrors are
selected. -/
def pacmanConfContent : String :=
  "\n[options]\nHoldPkg     = pacman glibc\nArchitecture = auto\nCheckSpace\nSigLevel    = Required DatabaseOptional\nLocalFileSigLevel = Optional\n\n[core]\nServer = http://" ++
    PACMAN_MIRROR ++ "/$repo/os/$arch\n\n[extra]\nServer = http://" ++
    PACMAN_MIRROR ++ "/$repo/os/$arch\n\n[community]\nServer = http://" ++
    PACMAN_MIRROR ++ "/$repo/os/$arch\n"

/-- install.py lines 196-204: the paru.conf written when local mirrors are
selected. -/
def paruConfContent : String :=
  "\n[options]\nPacmanConf = /etc/pacman.conf\nAURonly\nSkipReview\n\n[bin]\nServer = http://" ++
    AUR_MIRROR ++ "/aur\n"

/-- install.py lines 217-230: the mkinitcpio preset for unified kernel
images. -/
def linuxPresetContent : String :=
  "\n# mkinitcpio preset file for the \x27linux\x27 package\n\nALL_config=\"/etc/mkinitcpio.conf\"\nALL_kver=\"/boot/vmlinuz-linux\"\n\nPRESETS=(\x27default\x27 \x27fallback\x27)\n\ndefault_uki=\"/boot/EFI/Linux/arch-linux.efi\"\ndefault_options=\"--splash /usr/share/systemd/bootctl/splash-arch.bmp\"\n\nfallback_uki=\"/boot/EFI/Linux/arch-linux-fallback.efi\"\nfallback_options=\"-S autodetect\"\n"

/-- install.py lines 244-247: the HOOKS line is always appended to
mkinitcpio.conf; a MODULES line follows when a GPU driver was detected
from the lspci output. -/
def mkinitcpioHooks (driver : Option String) : String :=
  "\nHOOKS=(base udev autodetect modconf kms plymouth block encrypt filesystems keyboard fsck)\n" ++
    (match driver with
     | some d => "MODULES=(" ++ d ++ ")\n"
     | none => "")

/-- install.py lines 264-269: the systemd-boot loader.conf. -/
def loaderConfContent : String :=
  "\ndefault arch-linux*.efi\ntimeout 1\nconsole-mode max\neditor no\n"

/-- install.py line 300: the exact chroot command that adds the swap-file
entry - an appending shell redirection into /etc/fstab. -/
def swapFstabAppendCmd : String :=
  "echo \"/swapfile none swap pri=5 0 0\" >> /etc/fstab"

/-- The fstab line the appending redirection adds. -/
def swapFstabLine : String := "/swapfile none swap pri=5 0 0"

/-- One observable action of the installation sequence of install.py. -/
inductive Step
  | mountLayout
  | mkdirParents (path : String)
  | writeFile (path content : String)
  | appendFile (path content : String)
  | minimalInstall (hostname : String)
  | addPackages (pkgs : List String)
  | addBootloader (loader : String)
  | installProfile (profileName : String)
  | createUser (name : String) (sudoer : Bool)
  | setUserPassword (name : String)
  | enableServices (svcs : List String)
  | setTimezone (tz : String)
  | setupSwap (kind : String)
  | chroot (cmd : String)
  | copyTree (src dst : String)
  | hostRun (argv : List String)
deriving Repr, DecidableEq, BEq

/-- The sequence of actions install.py performs from `mount_ordered_layout`
(line 165) to the post-install invocation (lines 329-334), in program
order, as a function of the run's inputs: hostname, sudo user, the local
mirror choice, the detected GPU driver and the encrypted partition's
UUID. -/
def scriptTrace (hostname sudo_user : String) (use_local_mirrors : Bool)
    (driver : Option String) (uuid : String) : List Step :=
  [Step.mountLayout]
  ++ (if use_local_mirrors then [Step.writeFile "/mnt/etc/pacman.conf" pacmanConfContent]
      else [])
  ++ [Step.minimalInstall hostname]
  ++ (if use_local_mirrors then [Step.writeFile "/mnt/etc/paru.conf" paruConfContent]
      else [])
  ++ [Step.mkdirParents "/mnt/etc/kernel",
      Step.writeFile "/mnt/etc/kernel/cmdline" (kernelCmdline uuid),
      Step.mkdirParents "/mnt/etc/mkinitcpio.d",
      Step.writeFile "/mnt/etc/mkinitcpio.d/linux.preset" linuxPresetContent,
      Step.addPackages ["systemd-ukify", "networkmanager", "openssh", "iwd", "plymouth"],
      Step.addBootloader "Systemd",
      Step.mkdirParents "/mnt/boot/EFI/Linux",
      Step.appendFile "/mnt/etc/mkinitcpio.conf" (mkinitcpioHooks driver),
      Step.chroot "plymouth-set-default-theme -R spinner",
      Step.mkdirParents "/mnt/etc/plymouth",
      Step.writeFile "/mnt/etc/plymouth/plymouthd.conf" "[Daemon]\nTheme=spinner\nShowDelay=0\n",
      Step.chroot "mkinitcpio -P",
      Step.writeFile "/mnt/boot/loader/loader.conf" loaderConfContent,
      Step.installProfile "minimal",
      Step.createUser sudo_user true,
      Step.setUserPassword "root",
      Step.enableServices ["NetworkManager.service", "sshd.service", "iwd.service"],
      Step.setTimezone "Europe/Oslo",
      Step.setupSwap "zram",
      Step.chroot "fallocate -l 8G /swapfile",
      Step.chroot "chmod 600 /swapfile",
      Step.chroot "mkswap /swapfile",
      Step.chroot swapFstabAppendCmd,
      Step.mkdirParents "/mnt/opt/archinstall",
      Step.copyTree "/tmp/archinstall" "/mnt/opt/archinstall",
      Step.chroot "chmod +x /opt/archinstall/post_install.sh",
      Step.hostRun ["arch-chroot", "/mnt", "/opt/archinstall/post_install.sh", sudo_user]]

/-- A step that invokes the customization payload: an arch-chroot host
command whose command path is the fixed payload location. -/
def isPayloadInvocation : Step → Bool
  | Step.hostRun ("arch-chroot" :: _ :: "/opt/archinstall/post_install.sh" :: _) => true
  | _ => false

/-- A step belonging to the customization handoff: copying the payload,
marking it executable, or invoking it. -/
def isHandoffStep (s : Step) : Bool :=
  match s with
  | Step.copyTree _ _ => true
  | Step.chroot "chmod +x /opt/archinstall/post_install.sh" => true
  | _ => isPayloadInvocation s

/-- C7: for all run inputs, the customization-handoff steps of the script's
action sequence are exactly, in order: copying the caller-supplied payload
directory into the target at the fixed location /opt/archinstall, marking
the script executable inside the chroot, and a single invocation through
arch-chroot with the primary non-root username as its sole argument - and
the payload is invoked exactly once in the whole sequence. -/
theorem customization_handoff_steps (hostname sudo_user : String)
    (use_local_mirrors : Bool) (driver : Option String) (uuid : String) :
    (scriptTrace hostname sudo_user use_local_mirrors driver uuid).filter isHandoffStep =
      [Step.copyTree "/tmp/archinstall" "/mnt/opt/archinstall",
       Step.chroot "chmod +x /opt/archinstall/post_install.sh",
       Step.hostRun ["arch-chroot", "/mnt", "/opt/archinstall/post_install.sh", sudo_user]] ∧
    ((scriptTrace hostname sudo_user use_local_mirrors driver uuid).filter
        isPayloadInvocation).length = 1 := by
  cases use_local_mirrors <;> exact ⟨rfl, rfl⟩

/-- Effect of the appending redirection on the durable mount table, viewed
as its list of lines: the existing lines stay in place and one new line is
added at the end. -/
def appendToFstab (fstab : List String) : List String :=
  fstab ++ [swapFstabLine]

/-- C9: adding the swap-file entry appends to the mount table rather than
rewriting it: for every previously written table, all its lines remain
unchanged in place, exactly one new line - the swap-file entry - appears at
the end, and the script issues the appending command exactly once for every
combination of run inputs. -/
theorem fstab_append_preserves (hostname sudo_user : String)
    (use_local_mirrors : Bool) (driver : Option String) (uuid : String)
    (fstab : List String) :
    (appendToFstab fstab).take fstab.length = fstab ∧
    (appendToFstab fstab).length = fstab.length + 1 ∧
    (appendToFstab fstab).drop fstab.length = [swapFstabLine] ∧
    ((scriptTrace hostname sudo_user use_local_mirrors driver uuid).filter
        (fun s => s == Step.chroot swapFstabAppendCmd)).length = 1 := by
  refine ⟨?_, by simp [appendToFstab], ?_, ?_⟩
  · simp [appendToFstab]
  · simp [appendToFstab]
  · cases use_local_mirrors <;> rfl

/-- A mount entry of the target mount set: a mountpoint path, kept as its
list of path components (the empty list is /), and the backing device. -/
structure MountEntry where
  mountpoint : List String
  device : String
deriving Repr, DecidableEq

/-- Path depth of an entry's mountpoint: its number of components. -/
def pathDepth (e : MountEntry) : Nat := e.mountpoint.length

/-- Lexicographic comparison of path component lists. -/
def lexLE : List String → List String → Bool
  | [], _ => true
  | _ :: _, [] => false
  | a :: as, b :: bs => if a = b then lexLE as bs else decide (a < b)

/-- Modelled from the spec: the order_for_mount comparison - ascending path
depth first, then lexicographic on the path. The sorting itself implements
`mount_ordered_layout` (install.py line 165), whose body lives in the
archinstall library, not under src/. -/
def mountLE (a b : MountEntry) : Bool :=
  if pathDepth a = pathDepth b then lexLE a.mountpoint b.mountpoint
  else decide (pathDepth a < pathDepth b)

/-- Insert an entry into an already ordered list of entries. -/
def orderedInsertEntry (e : MountEntry) : List MountEntry → List MountEntry
  | [] => [e]
  | x :: xs => if mountLE e x then e :: x :: xs else x :: orderedInsertEntry e xs

/-- Modelled from the spec: `order_for_mount(mount entries)` sorts the
entries by ascending path depth then lexicographically, so every parent
mounts before its children. -/
def order_for_mount (entries : List MountEntry) : List MountEntry :=
  entries.foldr orderedInsertEntry []

/-- `strictAncestor a b`: path a is a proper ancestor of path b, e.g. / of
/boot, or /boot of /boot/efi. -/
def strictAncestor : List String → List String → Bool
  | [], [] => false
  | [], _ :: _ => true
  | _ :: _, [] => false
  | a :: as, b :: bs => a == b && strictAncestor as bs

/-- A proper ancestor path is strictly shorter. -/
theorem strictAncestor_length {a b : List String} (h : strictAncestor a b = true) :
    a.length < b.length := by
  induction a generalizing b with
  | nil =>
    cases b with
    | nil => simp [strictAncestor] at h
    | cons y ys => simp
  | cons x xs ih =>
    cases b with
    | nil => simp [strictAncestor] at h
    | cons y ys =>
      simp only [strictAncestor, Bool.and_eq_true] at h
      have := ih h.2
      simp only [List.length_cons]
      omega

/-- A failed comparison bounds the depths the other way. -/
theorem mountLE_false_depth {a b : MountEntry} (h : mountLE a b = false) :
    pathDepth b ≤ pathDepth a := by
  unfold mountLE at h
  split_ifs at h with hd
  · omega
  · simp only [decide_eq_false_iff_not, not_lt] at h
    exact h

/-- A successful comparison bounds the depths. -/
theorem mountLE_true_depth {a b : MountEntry} (h : mountLE a b = true) :
    pathDepth a ≤ pathDepth b := by
  unfold mountLE at h
  split_ifs at h with hd
  · omega
  · simp only [decide_eq_true_eq] at h
    omega

/-- Members of an insertion are the inserted entry or old members. -/
theorem mem_orderedInsertEntry {e y : MountEntry} {l : List MountEntry}
    (h : y ∈ orderedInsertEntry e l) : y = e ∨ y ∈ l := by
  induction l with
  | nil => simpa [orderedInsertEntry] using h
  | cons x xs ih =>
    unfold orderedInsertEntry at h
    split_ifs at h with hle
    · rcases List.mem_cons.mp h with rfl | h2
      · exact Or.inl rfl
      · exact Or.inr h2
    · rcases List.mem_cons.mp h with rfl | h2
      · exact Or.inr (List.mem_cons_self _ _)
      · rcases ih h2 with rfl | h3
        · exact Or.inl rfl
        · exact Or.inr (List.mem_cons_of_mem _ h3)

/-- Insertion preserves the ascending-depth invariant. -/
theorem pairwise_orderedInsertEntry {e : MountEntry} {l : List MountEntry}
    (h : l.Pairwise (fun x y => pathDepth x ≤ pathDepth y)) :
    (orderedInsertEntry e l).Pairwise (fun x y => pathDepth x ≤ pathDepth y) := by
  induction l with
  | nil => simp [orderedInsertEntry]
  | cons x xs ih =>
    rcases List.pairwise_cons.mp h with ⟨hx, hxs⟩
    unfold orderedInsertEntry
    split_ifs with hle
    · refine List.pairwise_cons.mpr ⟨?_, h⟩
      intro y hy
      rcases List.mem_cons.mp hy with rfl | hy2
      · exact mountLE_true_depth hle
      · exact le_trans (mountLE_true_depth hle) (hx y hy2)
    · refine List.pairwise_cons.mpr ⟨?_, ih hxs⟩
      intro y hy
      rcases mem_orderedInsertEntry hy with rfl | hy2
      · have hf : mountLE y x = false := by
          simpa using hle
        exact mountLE_false_depth hf
      · exact hx y hy2

/-- Insertion is a permutation of consing. -/
theorem perm_orderedInsertEntry (e : MountEntry) (l : List MountEntry) :
    List.Perm (orderedInsertEntry e l) (e :: l) := by
  induction l with
  | nil => exact List.Perm.refl _
  | cons x xs ih =>
    unfold orderedInsertEntry
    split_ifs
    · exact List.Perm.refl _
    · exact List.Perm.trans (List.Perm.cons x ih) (List.Perm.swap e x xs)

/-- The mount order is a permutation of the given entries. -/
theorem order_for_mount_perm (l : List MountEntry) :
    List.Perm (order_for_mount l) l := by
  induction l with
  | nil => exact List.Perm.refl _
  | cons x xs ih =>
    unfold order_for_mount
    simp only [List.foldr_cons]
    exact List.Perm.trans (perm_orderedInsertEntry x _) (List.Perm.cons x ih)

/-- The mount order is sorted by ascending path depth. -/
theorem order_for_mount_depth_sorted (l : List MountEntry) :
    (order_for_mount l).Pairwise (fun x y => pathDepth x ≤ pathDepth y) := by
  induction l with
  | nil => simp [order_for_mount]
  | cons x xs ih =>
    unfold order_for_mount at ih ⊢
    simp only [List.foldr_cons]
    exact pairwise_orderedInsertEntry ih

/-- C6: for every set of mount entries the produced order is a permutation
of the entries in which no entry ever precedes a proper ancestor of its own
mountpoint - equivalently, each entry whose mountpoint is an ancestor path
of another entry's mountpoint is placed before that entry; in particular /
is always mounted before /boot. -/
theorem mount_order_ancestors_first (entries : List MountEntry) :
    List.Perm (order_for_mount entries) entries ∧
    (order_for_mount entries).Pairwise
      (fun x y => strictAncestor y.mountpoint x.mountpoint = false) := by
  refine ⟨order_for_mount_perm entries, ?_⟩
  refine (order_for_mount_depth_sorted entries).imp ?_
  intro x y hxy
  by_contra hanc
  simp only [Bool.not_eq_false] at hanc
  have hlen := strictAncestor_length hanc
  unfold pathDepth at hxy
  omega

/-- Witness for C6 on the entries for /, /boot and /boot/efi. -/
theorem mount_order_ancestors_first_witness :
    List.Perm
      (order_for_mount
        [{ mountpoint := ["boot", "efi"], device := "/dev/sda1" },
         { mountpoint := [], device := "/dev/mapper/cryptroot" },
         { mountpoint := ["boot"], device := "/dev/sda1" }])
      [{ mountpoint := ["boot", "efi"], device := "/dev/sda1" },
       { mountpoint := [], device := "/dev/mapper/cryptroot" },
       { mountpoint := ["boot"], device := "/dev/sda1" }] ∧
    (order_for_mount
        [{ mountpoint := ["boot", "efi"], device := "/dev/sda1" },
         { mountpoint := [], device := "/dev/mapper/cryptroot" },
         { mountpoint := ["boot"], device := "/dev/sda1" }]).Pairwise
      (fun x y => strictAncestor y.mountpoint x.mountpoint = false) :=
  mount_order_ancestors_first
    [{ mountpoint := ["boot", "efi"], device := "/dev/sda1" },
     { mountpoint := [], device := "/dev/mapper/cryptroot" },
     { mountpoint := ["boot"], device := "/dev/sda1" }]

end ArchInstall
